import Mathlib

/-!
Shallow embedding of the stale-bot processor (`src/main.ts`) and proofs about
its decision procedure.

The program paginates over open issues and pull requests, labels inactive ones
stale, and closes items that stay inactive past a second threshold, all under
an operation budget.  Remote calls are modelled as an explicit trace of
`RemoteCall` events; the operation counter is threaded explicitly; timestamps
are integers (milliseconds since the epoch).

The helpers imported from `./utils` (`isLabeled`, `wasLastUpdatedBefore`,
`appliedLabelBefore`, `getDateOfLastAppliedStaleLabel`, `isTrue`) are not part
of the sources; their definitions below are modelled from the specification and
are marked as such in their doc comments.  Everything else follows `main.ts`.
-/

namespace Stale

/-- Milliseconds per day, used for the day-based timestamp thresholds. -/
def millisPerDay : Int := 86400000

/-- A comment on an issue: the author kind as reported by the host
(`"User"` for humans, `"Bot"` for automated authors) and its creation time. -/
structure Comment where
  userType : String
  createdAt : Int
deriving DecidableEq

/-- An open issue or pull request as listed by the repository client:
number, title, last-updated timestamp, whether it is a pull request
(`!!issue.pull_request`), applied label names, label-added events from the
event history (label name and timestamp), and its comments. -/
structure Issue where
  number : Int
  title : String
  updatedAt : Int
  pullRequest : Bool
  labels : List String
  labelEvents : List (String × Int)
  comments : List Comment
deriving DecidableEq

/-- The validated run configuration, mirroring the `Args` type of `main.ts`
field for field. -/
structure Args where
  repoToken : String
  DRY_RUN : Bool
  staleIssueMessage : String
  stalePrMessage : String
  daysBeforeStale : Int
  daysBeforeClose : Int
  staleIssueLabel : String
  exemptIssueLabel : String
  stalePrLabel : String
  exemptPrLabel : String
  operationsPerRun : Int
deriving DecidableEq

/-- Raw action inputs as supplied to `core.getInput`; a missing input is the
empty string. -/
structure Inputs where
  repoToken : String
  dryRun : String
  staleIssueMessage : String
  stalePrMessage : String
  daysBeforeStale : String
  daysBeforeClose : String
  staleIssueLabel : String
  exemptIssueLabel : String
  stalePrLabel : String
  exemptPrLabel : String
  operationsPerRun : String
deriving DecidableEq

/-- One remote API call made during a run.  `listForRepo`, `listEvents` and
`listComments` are read-only; the other four mutate remote state.  The source
escapes the label name of `removeLabel` with `encodeURIComponent` for
transport; the event records the label it removes. -/
inductive RemoteCall where
  | listForRepo (page : Int)
  | listEvents (issueNumber : Int)
  | listComments (issueNumber : Int) (since : Int)
  | createComment (issueNumber : Int) (body : String)
  | addLabels (issueNumber : Int) (labels : List String)
  | removeLabel (issueNumber : Int) (name : String)
  | update (issueNumber : Int) (state : String)
deriving DecidableEq

/-- Whether a remote call mutates remote state. -/
def isMutation : RemoteCall → Bool
  | .createComment _ _ => true
  | .addLabels _ _ => true
  | .removeLabel _ _ => true
  | .update _ _ => true
  | _ => false

/-- Number of mutating calls in a trace. -/
def countMutations (l : List RemoteCall) : Nat :=
  l.countP (fun c => isMutation c)

/-- The read-only calls of a trace, in order. -/
def readsOf (l : List RemoteCall) : List RemoteCall :=
  l.filter (fun c => !isMutation c)

/-- Modelled from the spec: `isTrue` from the missing `./utils`, parsing the
boolean-like DRY_RUN flag from its textual input. -/
def isTrue (s : String) : Bool := s == "true"

/-- Modelled from the spec: `isLabeled` from the missing `./utils` — whether a
label name is in the item's set of applied labels. -/
def isLabeled (issue : Issue) (label : String) : Bool :=
  issue.labels.contains label

/-- Modelled from the spec: `getDateOfLastAppliedStaleLabel` from the missing
`./utils` — scan the item's event history for label-added events matching the
stale label name and take the latest timestamp.  The one read the source
charges for this lookup is recorded by the caller. -/
def getDateOfLastAppliedStaleLabel (issue : Issue) (staleLabel : String) : Int :=
  ((issue.labelEvents.filter (fun e => e.1 == staleLabel)).map (fun e => e.2)).foldl max 0

/-- Modelled from the spec: `wasLastUpdatedBefore` from the missing `./utils`
— the item's last-updated timestamp is at least `days` days old. -/
def wasLastUpdatedBefore (now : Int) (issue : Issue) (days : Int) : Bool :=
  decide (issue.updatedAt ≤ now - days * millisPerDay)

/-- Modelled from the spec: `appliedLabelBefore` from the missing `./utils`
— the stale-label application timestamp is older than `days` days. -/
def appliedLabelBefore (now : Int) (date : Int) (days : Int) : Bool :=
  decide (date < now - days * millisPerDay)

/-- From `main.ts`: list the comments posted at or after `since` (the client
filters by the `since` parameter, per its contract), keep those whose author
type is `"User"`, and report whether any remain. -/
def issueHasActivitySinceStaleLabelWasApplied (issue : Issue) (since : Int) : Bool :=
  (((issue.comments.filter (fun c => decide (since ≤ c.createdAt))).filter
      (fun c => c.userType == "User")).length) > 0

/-- From `main.ts`: unless in dry-run mode, post the close message as a comment
and set the item's state to closed, reporting 2 operations performed; in
dry-run do nothing and report 0. -/
def closeIssue (issue : Issue) (closeMessage : String) (dryRun : Bool) :
    Int × List RemoteCall :=
  if dryRun = false then
    (2, [.createComment issue.number closeMessage, .update issue.number "closed"])
  else (0, [])

/-- From `main.ts`: unless in dry-run mode, post the stale message as a comment
and add the stale label, reporting 2 operations performed; in dry-run do
nothing and report 0. -/
def addStaleLabel (issue : Issue) (staleMessage : String) (staleLabel : String)
    (dryRun : Bool) : Int × List RemoteCall :=
  if dryRun = false then
    (2, [.createComment issue.number staleMessage, .addLabels issue.number [staleLabel]])
  else (0, [])

/-- From `main.ts`: unless in dry-run mode, remove the stale label, reporting
1 operation performed; in dry-run do nothing and report 0. -/
def removeStaleLabel (issue : Issue) (staleLabel : String) (dryRun : Bool) :
    Int × List RemoteCall :=
  if dryRun = false then (1, [.removeLabel issue.number staleLabel])
  else (0, [])

/-- The role-specific stale message: `stalePrMessage` for a pull request,
`staleIssueMessage` for a plain issue. -/
def roleStaleMessage (args : Args) (issue : Issue) : String :=
  if issue.pullRequest then args.stalePrMessage else args.staleIssueMessage

/-- The role-specific stale label. -/
def roleStaleLabel (args : Args) (issue : Issue) : String :=
  if issue.pullRequest then args.stalePrLabel else args.staleIssueLabel

/-- The role-specific exempt label. -/
def roleExemptLabel (args : Args) (issue : Issue) : String :=
  if issue.pullRequest then args.exemptPrLabel else args.exemptIssueLabel

/-- Result of handling one item of a page: the amount subtracted from the
operation counter, the remote calls made, and whether control reaches the
budget check at the bottom of the loop body (`false` exactly on the two
`continue` paths of the source). -/
structure ItemResult where
  charge : Int
  calls : List RemoteCall
  checked : Bool
deriving DecidableEq

/-- The body of the `for` loop of `processIssues` in `main.ts`, for one item:
skip when the role-specific message is empty; skip when a configured exempt
label is present; otherwise either run the stale-label branch (two read
lookups, then close, remove the label, or do nothing) or, for an item not
updated within `daysBeforeStale` days, add the stale label.  Note the source
passes `args.stalePrMessage` to `closeIssue` for both roles. -/
def handleIssue (args : Args) (now : Int) (issue : Issue) : ItemResult :=
  let staleMessage := roleStaleMessage args issue
  if staleMessage = "" then ⟨0, [], false⟩
  else
    let staleLabel := roleStaleLabel args issue
    let exemptLabel := roleExemptLabel args issue
    if exemptLabel ≠ "" ∧ isLabeled issue exemptLabel = true then ⟨0, [], false⟩
    else if isLabeled issue staleLabel = true then
      let d := getDateOfLastAppliedStaleLabel issue staleLabel
      let activity := issueHasActivitySinceStaleLabelWasApplied issue d
      let reads : List RemoteCall := [.listEvents issue.number, .listComments issue.number d]
      if activity = false ∧ appliedLabelBefore now d args.daysBeforeClose = true then
        let c := closeIssue issue args.stalePrMessage args.DRY_RUN
        ⟨2 + c.1, reads ++ c.2, true⟩
      else if activity = true then
        let c := removeStaleLabel issue staleLabel args.DRY_RUN
        ⟨2 + c.1, reads ++ c.2, true⟩
      else ⟨2, reads, true⟩
    else if wasLastUpdatedBefore now issue args.daysBeforeStale = true then
      let c := addStaleLabel issue staleMessage staleLabel args.DRY_RUN
      ⟨c.1, c.2, true⟩
    else ⟨0, [], true⟩

/-- Result of processing the items of one page: the operation counter on exit,
the calls made, the numbers of the items examined, in order, and whether the
loop exited early through the `return 0` budget check. -/
structure PageResult where
  ops : Int
  calls : List RemoteCall
  examined : List Int
  halted : Bool
deriving DecidableEq

/-- The `for` loop of `processIssues`: handle each item in listed order;
after any item that reaches the bottom-of-loop check with the counter at or
below zero, return 0 at once. -/
def processItems (args : Args) (now : Int) : List Issue → Int → PageResult
  | [], ops => ⟨ops, [], [], false⟩
  | issue :: rest, ops =>
    let r := handleIssue args now issue
    let ops1 := ops - r.charge
    if r.checked = true ∧ ops1 ≤ 0 then ⟨0, r.calls, [issue.number], true⟩
    else
      let tail := processItems args now rest ops1
      ⟨tail.ops, r.calls ++ tail.calls, issue.number :: tail.examined, tail.halted⟩

/-- Result of a whole pagination run: remaining counter value, trace of remote
calls, and the numbers of the items examined. -/
structure RunResult where
  ops : Int
  calls : List RemoteCall
  examined : List Int
deriving DecidableEq

/-- `processIssues` from `main.ts`: fetch one page (one operation), return if
the page is empty or the counter is exactly zero, otherwise run the loop over
the page's items and, unless the loop returned early, recurse onto the next
page with the remaining counter.  The repository's pages are modelled as a
list of pages; a fetch beyond the data yields an empty page. -/
def processIssues (args : Args) (now : Int) : List (List Issue) → Int → Int → RunResult
  | [], ops, pg => ⟨ops - 1, [.listForRepo pg], []⟩
  | page :: rest, ops, pg =>
    let ops1 := ops - 1
    if page = [] ∨ ops1 = 0 then ⟨ops1, [.listForRepo pg], []⟩
    else
      let pr := processItems args now page ops1
      if pr.halted = true then ⟨0, .listForRepo pg :: pr.calls, pr.examined⟩
      else
        let next := processIssues args now rest pr.ops (pg + 1)
        ⟨next.ops, .listForRepo pg :: (pr.calls ++ next.calls), pr.examined ++ next.examined⟩

/-- The digit-prefix value of a character list: `none` when it starts with no
digit, otherwise the decimal value of its maximal digit prefix. -/
def digitsVal (cs : List Char) : Option Nat :=
  match cs.takeWhile Char.isDigit with
  | [] => none
  | ds => some (ds.foldl (fun a c => a * 10 + (c.toNat - '0'.toNat)) 0)

/-- JavaScript's `parseInt` on base-10 input, as used by `getAndValidateArgs`:
skip leading spaces, accept an optional sign, then read a maximal digit
prefix; the result is NaN (here `none`) when no digit follows. -/
def parseIntJS (s : String) : Option Int :=
  match s.data.dropWhile (fun c => c = ' ') with
  | '-' :: rest => (digitsVal rest).map (fun n => -(n : Int))
  | '+' :: rest => (digitsVal rest).map (fun n => (n : Int))
  | cs => (digitsVal cs).map (fun n => (n : Int))

/-- `getAndValidateArgs` from `main.ts`: required inputs throw when missing
(empty); the three numeric inputs are parsed with `parseInt` and a value that
does not parse to an integer is a fatal configuration error.  Errors are
returned as `Except.error`. -/
def getAndValidateArgs (i : Inputs) : Except String Args :=
  if i.repoToken = "" then .error "Input required and not supplied: repo-token"
  else if i.daysBeforeStale = "" then .error "Input required and not supplied: days-before-stale"
  else if i.daysBeforeClose = "" then .error "Input required and not supplied: days-before-close"
  else if i.staleIssueLabel = "" then .error "Input required and not supplied: stale-issue-label"
  else if i.stalePrLabel = "" then .error "Input required and not supplied: stale-pr-label"
  else if i.operationsPerRun = "" then .error "Input required and not supplied: operations-per-run"
  else
    match parseIntJS i.daysBeforeStale, parseIntJS i.daysBeforeClose,
        parseIntJS i.operationsPerRun with
    | some d1, some d2, some n =>
      .ok ⟨i.repoToken, isTrue i.dryRun, i.staleIssueMessage, i.stalePrMessage, d1, d2,
        i.staleIssueLabel, i.exemptIssueLabel, i.stalePrLabel, i.exemptPrLabel, n⟩
    | none, _, _ => .error "input days-before-stale did not parse to a valid integer"
    | _, none, _ => .error "input days-before-close did not parse to a valid integer"
    | _, _, none => .error "input operations-per-run did not parse to a valid integer"

/-- Outcome of a whole invocation: success with the remaining counter, or a
failed run (`core.setFailed`, non-zero exit status). -/
inductive RunOutcome where
  | ok (remaining : Int)
  | failed (message : String)
deriving DecidableEq

/-- `run` from `main.ts`: validate the configuration, then process the issues
with the configured budget starting at page 1; any error before the client is
created leaves the run failed with no remote call made. -/
def run (i : Inputs) (now : Int) (pages : List (List Issue)) :
    RunOutcome × List RemoteCall :=
  match getAndValidateArgs i with
  | .error e => (.failed e, [])
  | .ok args =>
    let r := processIssues args now pages args.operationsPerRun 1
    (.ok r.ops, r.calls)

/-- Replace only the dry-run flag of a configuration. -/
def setDry (args : Args) (b : Bool) : Args :=
  ⟨args.repoToken, b, args.staleIssueMessage, args.stalePrMessage, args.daysBeforeStale,
    args.daysBeforeClose, args.staleIssueLabel, args.exemptIssueLabel, args.stalePrLabel,
    args.exemptPrLabel, args.operationsPerRun⟩

/-! ### Helper lemmas about a single item -/

lemma handleIssue_basic (args : Args) (now : Int) (issue : Issue) :
    0 ≤ (handleIssue args now issue).charge ∧
    countMutations (handleIssue args now issue).calls ≤ 2 ∧
    ((countMutations (handleIssue args now issue).calls : Int) ≤
      (handleIssue args now issue).charge) ∧
    ((handleIssue args now issue).checked = false →
      handleIssue args now issue = ⟨0, [], false⟩) ∧
    (args.DRY_RUN = true → countMutations (handleIssue args now issue).calls = 0) := by
  simp only [handleIssue, closeIssue, removeStaleLabel, addStaleLabel]
  split_ifs <;>
    simp_all [countMutations, isMutation, List.countP_cons, List.countP_nil]

lemma handleIssue_pair (args : Args) (now : Int) (issue : Issue) :
    (handleIssue (setDry args true) now issue).checked =
      (handleIssue (setDry args false) now issue).checked ∧
    (handleIssue (setDry args true) now issue).charge ≤
      (handleIssue (setDry args false) now issue).charge ∧
    readsOf (handleIssue (setDry args true) now issue).calls =
      readsOf (handleIssue (setDry args false) now issue).calls := by
  simp only [handleIssue, closeIssue, removeStaleLabel, addStaleLabel, roleStaleMessage,
    roleStaleLabel, roleExemptLabel, setDry]
  split_ifs <;>
    simp_all [readsOf, isMutation, List.filter]

lemma countMutations_append (a b : List RemoteCall) :
    countMutations (a ++ b) = countMutations a + countMutations b := by
  simp [countMutations, List.countP_append]

lemma readsOf_append (a b : List RemoteCall) :
    readsOf (a ++ b) = readsOf a ++ readsOf b := by
  simp [readsOf, List.filter_append]

/-! ### Budget accounting over one page and over the whole run -/

lemma processItems_budget (args : Args) (now : Int) :
    ∀ (issues : List Issue) (ops : Int), 1 ≤ ops →
      ((processItems args now issues ops).halted = true →
        (countMutations (processItems args now issues ops).calls : Int) ≤ ops + 1) ∧
      ((processItems args now issues ops).halted = false →
        (countMutations (processItems args now issues ops).calls : Int) +
          (processItems args now issues ops).ops ≤ ops ∧
        1 ≤ (processItems args now issues ops).ops) := by
  intro issues
  induction issues with
  | nil =>
    intro ops h
    simp [processItems, countMutations]
    omega
  | cons issue rest ih =>
    intro ops h
    obtain ⟨h0, h2, hm, hunch, _⟩ := handleIssue_basic args now issue
    simp only [processItems]
    split_ifs with hc
    · constructor
      · intro _
        simp only []
        omega
      · intro hfalse
        simp at hfalse
    · by_cases hch : (handleIssue args now issue).checked = true
      · have hb : ¬((ops - (handleIssue args now issue).charge) ≤ 0) :=
          fun hb => hc ⟨hch, hb⟩
        have hops1 : 1 ≤ ops - (handleIssue args now issue).charge := by omega
        obtain ⟨iha, ihb⟩ := ih (ops - (handleIssue args now issue).charge) hops1
        constructor
        · intro hh
          simp only [] at hh ⊢
          rw [countMutations_append]
          have := iha hh
          omega
        · intro hh
          simp only [] at hh ⊢
          rw [countMutations_append]
          obtain ⟨i1, i2⟩ := ihb hh
          omega
      · have heq := hunch (Bool.not_eq_true _ ▸ hch)
        rw [heq]
        simp only [ItemResult.charge, ItemResult.calls, sub_zero, List.nil_append]
        obtain ⟨iha, ihb⟩ := ih ops h
        exact ⟨iha, ihb⟩

lemma countMutations_fetch (pg : Int) (l : List RemoteCall) :
    countMutations (.listForRepo pg :: l) = countMutations l := by
  simp [countMutations, List.countP_cons, isMutation]

lemma processIssues_budget (args : Args) (now : Int) :
    ∀ (pages : List (List Issue)) (B pg : Int), 1 ≤ B →
      (countMutations (processIssues args now pages B pg).calls : Int) ≤ B := by
  intro pages
  induction pages with
  | nil =>
    intro B pg h
    simp [processIssues, countMutations, isMutation]
    omega
  | cons page rest ih =>
    intro B pg h
    simp only [processIssues]
    split_ifs with hstop hhalt
    · simp [countMutations, isMutation]
      omega
    · have h1 : 1 ≤ B - 1 := by
        rcases not_or.mp hstop with ⟨hp, hops⟩
        omega
      obtain ⟨ba, _⟩ := processItems_budget args now page (B - 1) h1
      have hM := ba hhalt
      simp only [RunResult.calls, countMutations_fetch]
      omega
    · have h1 : 1 ≤ B - 1 := by
        rcases not_or.mp hstop with ⟨hp, hops⟩
        omega
      obtain ⟨_, bb⟩ := processItems_budget args now page (B - 1) h1
      obtain ⟨i1, i2⟩ := bb (Bool.not_eq_true _ ▸ hhalt)
      have hnext := ih (processItems args now page (B - 1)).ops (pg + 1) i2
      simp only [RunResult.calls, countMutations_fetch, countMutations_append]
      omega

lemma processItems_halt_midpage (args : Args) (now : Int) :
    ∀ (pre : List Issue) (ops : Int) (it : Issue) (post : List Issue),
      (processItems args now pre ops).halted = false →
      (handleIssue args now it).checked = true →
      (processItems args now pre ops).ops - (handleIssue args now it).charge ≤ 0 →
      processItems args now (pre ++ it :: post) ops =
        ⟨0, (processItems args now pre ops).calls ++ (handleIssue args now it).calls,
          (processItems args now pre ops).examined ++ [it.number], true⟩ := by
  intro pre
  induction pre with
  | nil =>
    intro ops it post _ h2 h3
    simp only [processItems, PageResult.ops, PageResult.calls, PageResult.examined] at h3 ⊢
    simp [processItems, h2, h3]
  | cons p pre' ih =>
    intro ops it post h1 h2 h3
    simp only [processItems, List.cons_append] at h1 h3 ⊢
    by_cases hc : (handleIssue args now p).checked = true ∧
        ops - (handleIssue args now p).charge ≤ 0
    · rw [if_pos hc] at h1
      simp at h1
    · simp only [if_neg hc] at h1 h3 ⊢
      simp only [List.append_eq, PageResult.halted, PageResult.ops, PageResult.calls,
        PageResult.examined] at h1 h3 ⊢
      rw [ih (ops - (handleIssue args now p).charge) it post h1 h2 h3]
      simp [List.append_assoc]

lemma processIssues_halt_page (args : Args) (now : Int) (page : List Issue)
    (rest : List (List Issue)) (B pg : Int) (hp : page ≠ []) (hb : ¬(B - 1 = 0))
    (hh : (processItems args now page (B - 1)).halted = true) :
    processIssues args now (page :: rest) B pg =
      ⟨0, .listForRepo pg :: (processItems args now page (B - 1)).calls,
        (processItems args now page (B - 1)).examined⟩ := by
  simp only [processIssues]
  rw [if_neg (by simp [hp, hb]), if_pos hh]

/-! ### Claim C1 -/

/-- Arguments for the C1 counterexample: operations budget 0, normal mode. -/
def c1Args : Args := ⟨"t", false, "msg", "pmsg", 30, 30, "stale", "", "stale-pr", "", 0⟩

/-- A plain issue with no labels, last updated more than 30 days before `now`. -/
def c1Issue : Issue := ⟨1, "a", 0, false, [], [], []⟩

/-- C1 counterexample: with the configured operations budget 0, the run still
performs 2 mutating remote calls (the stale comment and the stale label), so
the processor does not keep its mutating actions within the budget; the claim
fails as stated for non-positive budgets, which validation accepts. -/
theorem claim_C1_counterexample :
    ¬((countMutations (processIssues c1Args (31 * millisPerDay) [[c1Issue]]
        c1Args.operationsPerRun 1).calls : Int) ≤ c1Args.operationsPerRun) := by
  decide

/-- C1 (amended): for every run with a positive operations budget the
processor performs no more mutating remote calls than the budget; whenever the
counter reaches zero or below through handling an item in the middle of a
page, processing halts immediately after that item, returns 0, and no further
item on that page (second conjunct) or any later page (third conjunct) is
examined or mutated. -/
theorem claim_C1_amended :
    (∀ (args : Args) (now : Int) (pages : List (List Issue)) (B pg : Int), 1 ≤ B →
      (countMutations (processIssues args now pages B pg).calls : Int) ≤ B) ∧
    (∀ (args : Args) (now : Int) (pre : List Issue) (ops : Int) (it : Issue)
        (post : List Issue),
      (processItems args now pre ops).halted = false →
      (handleIssue args now it).checked = true →
      (processItems args now pre ops).ops - (handleIssue args now it).charge ≤ 0 →
      processItems args now (pre ++ it :: post) ops =
        ⟨0, (processItems args now pre ops).calls ++ (handleIssue args now it).calls,
          (processItems args now pre ops).examined ++ [it.number], true⟩) ∧
    (∀ (args : Args) (now : Int) (page : List Issue) (rest : List (List Issue)) (B pg : Int),
      page ≠ [] → ¬(B - 1 = 0) →
      (processItems args now page (B - 1)).halted = true →
      processIssues args now (page :: rest) B pg =
        ⟨0, .listForRepo pg :: (processItems args now page (B - 1)).calls,
          (processItems args now page (B - 1)).examined⟩) := by
  refine ⟨?_, ?_, ?_⟩
  · intro args now pages B pg h
    exact processIssues_budget args now pages B pg h
  · intro args now pre ops it post h1 h2 h3
    exact processItems_halt_midpage args now pre ops it post h1 h2 h3
  · intro args now page rest B pg hp hb hh
    exact processIssues_halt_page args now page rest B pg hp hb hh

/-- Configuration used by the C1 witness. -/
def c1wArgs : Args := ⟨"t", false, "m", "pm", 30, 30, "stale", "", "stale", "", 5⟩

/-- A stale-labeled issue whose handling charges the two read lookups. -/
def c1wIssue : Issue := ⟨3, "w", 0, false, ["stale"], [("stale", 50)], []⟩

/-- Witness instantiating each conjunct of the amended C1 at concrete input. -/
theorem claim_C1_amended_witness :
    ((countMutations (processIssues c1wArgs 0 [] 5 1).calls : Int) ≤ 5) ∧
    (processItems c1wArgs 0 ([] ++ c1wIssue :: []) 1 =
      ⟨0, (processItems c1wArgs 0 [] 1).calls ++ (handleIssue c1wArgs 0 c1wIssue).calls,
        (processItems c1wArgs 0 [] 1).examined ++ [c1wIssue.number], true⟩) ∧
    (processIssues c1wArgs 0 ([c1wIssue] :: []) 0 1 =
      ⟨0, .listForRepo 1 :: (processItems c1wArgs 0 [c1wIssue] (0 - 1)).calls,
        (processItems c1wArgs 0 [c1wIssue] (0 - 1)).examined⟩) :=
  ⟨claim_C1_amended.1 c1wArgs 0 [] 5 1 (by decide),
   claim_C1_amended.2.1 c1wArgs 0 [] 1 c1wIssue [] (by decide) (by decide) (by decide),
   claim_C1_amended.2.2 c1wArgs 0 [c1wIssue] [] 0 1 (by decide) (by decide) (by decide)⟩

/-! ### Claim C3 -/

/-- C3 (amended): every page fetch costs one budget unit, and if the fetched
page is empty or the budget is exactly zero after that fetch, the processor
stops and returns the remaining budget without examining any item. -/
theorem claim_C3_amended :
    (∀ (args : Args) (now : Int) (B pg : Int),
      processIssues args now [] B pg = ⟨B - 1, [.listForRepo pg], []⟩) ∧
    (∀ (args : Args) (now : Int) (page : List Issue) (rest : List (List Issue)) (B pg : Int),
      page = [] ∨ B - 1 = 0 →
      processIssues args now (page :: rest) B pg = ⟨B - 1, [.listForRepo pg], []⟩) := by
  constructor
  · intro args now B pg
    rfl
  · intro args now page rest B pg h
    simp only [processIssues]
    rw [if_pos h]

/-- Arguments for the C3 counterexample: operations budget 0. -/
def c3Args : Args := ⟨"t", false, "m", "pm", 30, 30, "stale", "", "stale", "", 0⟩

/-- A plain issue that matches no rule, so handling it only reaches the
bottom-of-loop budget check. -/
def c3Issue : Issue := ⟨42, "x", 0, false, [], [], []⟩

/-- C3 counterexample: with budget 0 the counter is −1 (at or below zero)
after the first fetch, yet the item of the non-empty page is still examined —
the source stops only when the counter is exactly zero. -/
theorem claim_C3_counterexample :
    ((0 : Int) - 1 ≤ 0) ∧ (processIssues c3Args 0 [[c3Issue]] 0 1).examined = [42] := by
  decide

/-- Witness instantiating the amended C3: with budget 1 the fetch is charged
and no item of the (non-empty) page is examined. -/
theorem claim_C3_amended_witness :
    processIssues c3Args 0 ([c3Issue] :: []) 1 1 = ⟨1 - 1, [.listForRepo 1], []⟩ :=
  claim_C3_amended.2 c3Args 0 [c3Issue] [] 1 1 (Or.inr (by decide))

/-! ### Claim C7 -/

/-- C7: if the configured role-specific exempt label is non-empty and present
on the item, the item is skipped outright: no remote call, no operation
charged, and control takes the `continue` path — regardless of the item's
labels, timestamps or comments, so the exempt check precedes the stale-label
and last-updated checks. -/
theorem claim_C7 (args : Args) (now : Int) (issue : Issue)
    (hne : roleExemptLabel args issue ≠ "")
    (hlab : isLabeled issue (roleExemptLabel args issue) = true) :
    handleIssue args now issue = ⟨0, [], false⟩ := by
  by_cases hm : roleStaleMessage args issue = ""
  · simp [handleIssue, hm]
  · simp [handleIssue, hm, hne, hlab]

/-- Arguments for the C7 witness: exempt label configured for issues. -/
def c7Args : Args := ⟨"t", false, "m", "pm", 30, 30, "stale", "wip", "stale", "", 10⟩

/-- A very stale issue that also carries both the stale and the exempt label. -/
def c7Issue : Issue := ⟨9, "e", 0, false, ["stale", "wip"], [("stale", 5)], []⟩

/-- Witness: the exempt-labeled issue is skipped with no calls and no charge
even though every staleness condition holds. -/
theorem claim_C7_witness :
    handleIssue c7Args (40 * millisPerDay) c7Issue = ⟨0, [], false⟩ :=
  claim_C7 c7Args (40 * millisPerDay) c7Issue (by decide) (by decide)

/-! ### Claim C2 -/

/-- Configuration with distinct issue and pull-request stale messages. -/
def c2Args : Args :=
  ⟨"t", false, "issue-close-message", "pr-close-message", 30, 30, "stale", "", "stale-pr", "", 10⟩

/-- A plain (non-PR) stale-labeled issue eligible for closing. -/
def c2Issue : Issue := ⟨7, "g", 0, false, ["stale"], [("stale", 100)], []⟩

/-- C2: when a plain issue is closed, the comment posted before closing is
`args.stalePrMessage`, not the issue's role-specific message — `processIssues`
passes the PR stale message to `closeIssue` for both roles. -/
theorem claim_C2_bug :
    c2Issue.pullRequest = false ∧
    c2Args.staleIssueMessage ≠ c2Args.stalePrMessage ∧
    (handleIssue c2Args (40 * millisPerDay) c2Issue).calls =
      [.listEvents 7, .listComments 7 100,
        .createComment 7 c2Args.stalePrMessage, .update 7 "closed"] := by
  decide

/-! ### Claim C4 -/

/-- C4 (amended): a stale-labeled item whose role-specific message is
non-empty and which is not skipped by a configured exempt label, with no
human comment at or after the label's latest application and that application
older than `daysBeforeClose` days, gets exactly one close comment followed by
the state change to closed, the close charging 2 operations in normal mode
and 0 in dry-run (the two read lookups charge 1 each regardless). -/
theorem claim_C4_amended (args : Args) (now : Int) (issue : Issue)
    (hmsg : roleStaleMessage args issue ≠ "")
    (hex : ¬(roleExemptLabel args issue ≠ "" ∧
      isLabeled issue (roleExemptLabel args issue) = true))
    (hst : isLabeled issue (roleStaleLabel args issue) = true)
    (hact : issueHasActivitySinceStaleLabelWasApplied issue
      (getDateOfLastAppliedStaleLabel issue (roleStaleLabel args issue)) = false)
    (hold : appliedLabelBefore now
      (getDateOfLastAppliedStaleLabel issue (roleStaleLabel args issue))
      args.daysBeforeClose = true) :
    handleIssue args now issue =
      ⟨2 + (if args.DRY_RUN = false then 2 else 0),
        [.listEvents issue.number,
          .listComments issue.number
            (getDateOfLastAppliedStaleLabel issue (roleStaleLabel args issue))] ++
          (if args.DRY_RUN = false then
            [.createComment issue.number args.stalePrMessage, .update issue.number "closed"]
          else []),
        true⟩ := by
  by_cases hd : args.DRY_RUN = false <;>
    simp [handleIssue, closeIssue, hmsg, hex, hst, hact, hold, hd]

/-- Configuration for the C4 counterexample: exempt label configured. -/
def c4Args : Args := ⟨"t", false, "close-msg", "pm", 30, 30, "stale", "wip", "stale", "", 10⟩

/-- An item meeting every stated C4 condition that also carries the exempt
label. -/
def c4Issue : Issue := ⟨11, "b", 0, false, ["stale", "wip"], [("stale", 0)], []⟩

/-- C4 counterexample: all conditions of the claim hold in normal mode, yet
the item is skipped by the exempt check — no close comment is posted and the
item is not closed. -/
theorem claim_C4_counterexample :
    isLabeled c4Issue (roleStaleLabel c4Args c4Issue) = true ∧
    issueHasActivitySinceStaleLabelWasApplied c4Issue
      (getDateOfLastAppliedStaleLabel c4Issue (roleStaleLabel c4Args c4Issue)) = false ∧
    appliedLabelBefore (40 * millisPerDay)
      (getDateOfLastAppliedStaleLabel c4Issue (roleStaleLabel c4Args c4Issue))
      c4Args.daysBeforeClose = true ∧
    c4Args.DRY_RUN = false ∧
    (handleIssue c4Args (40 * millisPerDay) c4Issue).calls = [] := by
  decide

/-- Configuration for the C4 witness: no exempt label configured. -/
def c4wArgs : Args := ⟨"t", false, "im", "pm", 30, 30, "stale", "", "stale", "", 10⟩

/-- A stale-labeled issue, label applied 100 ms after the epoch, no comments. -/
def c4wIssue : Issue := ⟨12, "c", 0, false, ["stale"], [("stale", 100)], []⟩

/-- Witness: the amended C4 at a concrete input — one close comment then the
close, 4 total operations charged (2 reads + 2 mutations). -/
theorem claim_C4_amended_witness :
    handleIssue c4wArgs (40 * millisPerDay) c4wIssue =
      ⟨4, [.listEvents 12, .listComments 12 100, .createComment 12 "pm",
        .update 12 "closed"], true⟩ :=
  (claim_C4_amended c4wArgs (40 * millisPerDay) c4wIssue (by decide) (by decide)
    (by decide) (by decide) (by decide)).trans (by decide)

/-! ### Claim C5 -/

/-- C5 (amended): a stale-labeled item whose role-specific message is
non-empty and which is not skipped by a configured exempt label, with a human
comment at or after the label's latest application, gets its stale label
removed and nothing else: no comment, no close, the removal charging 1
operation in normal mode and 0 in dry-run. -/
theorem claim_C5_amended (args : Args) (now : Int) (issue : Issue)
    (hmsg : roleStaleMessage args issue ≠ "")
    (hex : ¬(roleExemptLabel args issue ≠ "" ∧
      isLabeled issue (roleExemptLabel args issue) = true))
    (hst : isLabeled issue (roleStaleLabel args issue) = true)
    (hact : issueHasActivitySinceStaleLabelWasApplied issue
      (getDateOfLastAppliedStaleLabel issue (roleStaleLabel args issue)) = true) :
    handleIssue args now issue =
      ⟨2 + (if args.DRY_RUN = false then 1 else 0),
        [.listEvents issue.number,
          .listComments issue.number
            (getDateOfLastAppliedStaleLabel issue (roleStaleLabel args issue))] ++
          (if args.DRY_RUN = false then
            [.removeLabel issue.number (roleStaleLabel args issue)]
          else []),
        true⟩ := by
  by_cases hd : args.DRY_RUN = false <;>
    simp [handleIssue, removeStaleLabel, hmsg, hex, hst, hact, hd]

/-- Configuration for the C5 counterexample: exempt label configured. -/
def c5Args : Args := ⟨"t", false, "im", "pm", 30, 30, "stale", "hold", "stale", "", 10⟩

/-- A stale-labeled item with a human comment after the label application that
also carries the exempt label. -/
def c5Issue : Issue := ⟨13, "d", 0, false, ["stale", "hold"], [("stale", 100)], [⟨"User", 200⟩]⟩

/-- C5 counterexample: the item carries the stale label and a human commented
after its application, yet the exempt check skips it — the stale label is not
removed (no remote call at all is made). -/
theorem claim_C5_counterexample :
    isLabeled c5Issue (roleStaleLabel c5Args c5Issue) = true ∧
    issueHasActivitySinceStaleLabelWasApplied c5Issue
      (getDateOfLastAppliedStaleLabel c5Issue (roleStaleLabel c5Args c5Issue)) = true ∧
    c5Args.DRY_RUN = false ∧
    (handleIssue c5Args (40 * millisPerDay) c5Issue).calls = [] := by
  decide

/-- Configuration for the C5 witness: no exempt label configured. -/
def c5wArgs : Args := ⟨"t", false, "im", "pm", 30, 30, "stale", "", "stale", "", 10⟩

/-- A stale-labeled issue with a human comment after the label application. -/
def c5wIssue : Issue := ⟨14, "h", 0, false, ["stale"], [("stale", 100)], [⟨"User", 150⟩]⟩

/-- Witness: the amended C5 at a concrete input — only the label removal
happens, 3 total operations charged (2 reads + 1 mutation). -/
theorem claim_C5_amended_witness :
    handleIssue c5wArgs (40 * millisPerDay) c5wIssue =
      ⟨3, [.listEvents 14, .listComments 14 100, .removeLabel 14 "stale"], true⟩ :=
  (claim_C5_amended c5wArgs (40 * millisPerDay) c5wIssue (by decide) (by decide)
    (by decide) (by decide)).trans (by decide)

/-! ### Claim C6 -/

/-- C6 (amended): an item without the stale label, without the exempt label,
whose role-specific stale message is non-empty and whose last update is at
least `daysBeforeStale` days old, gets the role-specific stale message posted
as a comment and the role-specific stale label added, charging 2 operations
in normal mode and 0 in dry-run. -/
theorem claim_C6_amended (args : Args) (now : Int) (issue : Issue)
    (hmsg : roleStaleMessage args issue ≠ "")
    (hst : isLabeled issue (roleStaleLabel args issue) = false)
    (hex : isLabeled issue (roleExemptLabel args issue) = false)
    (hupd : wasLastUpdatedBefore now issue args.daysBeforeStale = true) :
    handleIssue args now issue =
      ⟨(if args.DRY_RUN = false then 2 else 0),
        (if args.DRY_RUN = false then
          [.createComment issue.number (roleStaleMessage args issue),
            .addLabels issue.number [roleStaleLabel args issue]]
        else []),
        true⟩ := by
  by_cases hd : args.DRY_RUN = false <;>
    simp [handleIssue, addStaleLabel, hmsg, hst, hex, hupd, hd]

/-- Configuration for the C6 counterexample: the issue stale message is the
empty string. -/
def c6Args : Args := ⟨"t", false, "", "pm", 30, 30, "stale", "", "stale", "", 10⟩

/-- An unlabeled issue last updated long before the stale threshold. -/
def c6Issue : Issue := ⟨15, "f", 0, false, [], [], []⟩

/-- C6 counterexample: the item has no stale label, no exempt label and is old
enough, yet nothing happens because the role-specific message is empty. -/
theorem claim_C6_counterexample :
    isLabeled c6Issue (roleStaleLabel c6Args c6Issue) = false ∧
    isLabeled c6Issue (roleExemptLabel c6Args c6Issue) = false ∧
    wasLastUpdatedBefore (40 * millisPerDay) c6Issue c6Args.daysBeforeStale = true ∧
    c6Args.DRY_RUN = false ∧
    (handleIssue c6Args (40 * millisPerDay) c6Issue).calls = [] := by
  decide

/-- Configuration for the C6 witness: non-empty issue stale message. -/
def c6wArgs : Args := ⟨"t", false, "go-stale", "pm", 30, 30, "stale", "", "stale", "", 10⟩

/-- An unlabeled issue last updated long before the stale threshold. -/
def c6wIssue : Issue := ⟨16, "i", 0, false, [], [], []⟩

/-- Witness: the amended C6 at a concrete input — the stale comment and the
stale label, 2 operations charged. -/
theorem claim_C6_amended_witness :
    handleIssue c6wArgs (40 * millisPerDay) c6wIssue =
      ⟨2, [.createComment 16 "go-stale", .addLabels 16 ["stale"]], true⟩ :=
  (claim_C6_amended c6wArgs (40 * millisPerDay) c6wIssue (by decide) (by decide)
    (by decide) (by decide)).trans (by decide)

/-! ### Dry-run lockstep: the normal run's reads are an initial segment of the
dry run's reads -/

lemma processItems_lockstep (args : Args) (now : Int) :
    ∀ (issues : List Issue) (opsN opsD : Int), opsN ≤ opsD →
      (∃ t, readsOf (processItems (setDry args false) now issues opsN).calls ++ t =
        readsOf (processItems (setDry args true) now issues opsD).calls) ∧
      ((processItems (setDry args false) now issues opsN).halted = false →
        (processItems (setDry args true) now issues opsD).halted = false ∧
        (processItems (setDry args false) now issues opsN).ops ≤
          (processItems (setDry args true) now issues opsD).ops ∧
        readsOf (processItems (setDry args false) now issues opsN).calls =
          readsOf (processItems (setDry args true) now issues opsD).calls ∧
        ((opsN = opsD ∨ 1 ≤ opsN) →
          ((processItems (setDry args false) now issues opsN).ops =
            (processItems (setDry args true) now issues opsD).ops ∨
           1 ≤ (processItems (setDry args false) now issues opsN).ops))) := by
  intro issues
  induction issues with
  | nil =>
    intro opsN opsD h
    exact ⟨⟨[], rfl⟩, fun _ => ⟨rfl, h, rfl, fun hinv => hinv⟩⟩
  | cons issue rest ih =>
    intro opsN opsD h
    obtain ⟨hck, hch, hrd⟩ := handleIssue_pair args now issue
    obtain ⟨hN0, _, _, hNunch, _⟩ := handleIssue_basic (setDry args false) now issue
    obtain ⟨hD0, _, _, hDunch, _⟩ := handleIssue_basic (setDry args true) now issue
    simp only [processItems]
    by_cases hc : (handleIssue (setDry args false) now issue).checked = true
    · have hcD : (handleIssue (setDry args true) now issue).checked = true := by
        rw [hck, hc]
      by_cases hhN : opsN - (handleIssue (setDry args false) now issue).charge ≤ 0
      · rw [if_pos ⟨hc, hhN⟩]
        by_cases hhD : opsD - (handleIssue (setDry args true) now issue).charge ≤ 0
        · rw [if_pos ⟨hcD, hhD⟩]
          refine ⟨⟨[], by simp [hrd]⟩, ?_⟩
          intro hfalse
          simp at hfalse
        · rw [if_neg (fun hand => hhD hand.2)]
          refine ⟨⟨readsOf (processItems (setDry args true) now rest
            (opsD - (handleIssue (setDry args true) now issue).charge)).calls, ?_⟩, ?_⟩
          · simp only [PageResult.calls]
            rw [readsOf_append, hrd]
          · intro hfalse
            simp at hfalse
      · have hhD : ¬(opsD - (handleIssue (setDry args true) now issue).charge ≤ 0) := by
          intro hd
          exact hhN (by omega)
        rw [if_neg (fun hand => hhN hand.2), if_neg (fun hand => hhD hand.2)]
        obtain ⟨⟨t, htt⟩, hrest⟩ := ih (opsN - (handleIssue (setDry args false) now issue).charge)
          (opsD - (handleIssue (setDry args true) now issue).charge) (by omega)
        refine ⟨⟨t, ?_⟩, ?_⟩
        · simp only [PageResult.calls]
          rw [readsOf_append, readsOf_append, hrd, List.append_assoc, htt]
        · intro hhalt
          simp only [PageResult.halted] at hhalt
          obtain ⟨d1, d2, d3, d4⟩ := hrest hhalt
          refine ⟨d1, d2, ?_, ?_⟩
          · simp only [PageResult.calls]
            rw [readsOf_append, readsOf_append, hrd, d3]
          · intro _
            exact d4 (Or.inr (by omega))
    · have hcB : (handleIssue (setDry args false) now issue).checked = false := by
        revert hc
        cases (handleIssue (setDry args false) now issue).checked <;> simp
      have hcD : (handleIssue (setDry args true) now issue).checked = false := by
        rw [hck, hcB]
      have eN := hNunch hcB
      have eD := hDunch hcD
      rw [eN, eD]
      simp only [ItemResult.checked, ItemResult.charge, ItemResult.calls, sub_zero,
        List.nil_append, Bool.false_eq_true, false_and, if_false]
      exact ih opsN opsD h

lemma readsOf_fetch (pg : Int) (l : List RemoteCall) :
    readsOf (.listForRepo pg :: l) = .listForRepo pg :: readsOf l := by
  simp [readsOf, isMutation]

lemma processIssues_lockstep (args : Args) (now : Int) :
    ∀ (pages : List (List Issue)) (opsN opsD pg : Int), opsN ≤ opsD →
      (opsN = opsD ∨ 1 ≤ opsN) →
      ∃ t, readsOf (processIssues (setDry args false) now pages opsN pg).calls ++ t =
        readsOf (processIssues (setDry args true) now pages opsD pg).calls := by
  intro pages
  induction pages with
  | nil =>
    intro opsN opsD pg h hinv
    exact ⟨[], rfl⟩
  | cons page rest ih =>
    intro opsN opsD pg h hinv
    simp only [processIssues]
    by_cases hp : page = []
    · rw [if_pos (Or.inl hp), if_pos (Or.inl hp)]
      exact ⟨[], rfl⟩
    · by_cases hN0 : opsN - 1 = 0
      · rw [if_pos (Or.inr hN0)]
        by_cases hD0 : opsD - 1 = 0
        · rw [if_pos (Or.inr hD0)]
          exact ⟨[], rfl⟩
        · rw [if_neg (by simp [hp, hD0])]
          by_cases hh : (processItems (setDry args true) now page (opsD - 1)).halted = true
          · rw [if_pos hh]
            exact ⟨readsOf (processItems (setDry args true) now page (opsD - 1)).calls,
              by simp [readsOf, isMutation]⟩
          · rw [if_neg hh]
            exact ⟨readsOf ((processItems (setDry args true) now page (opsD - 1)).calls ++
                (processIssues (setDry args true) now rest
                  (processItems (setDry args true) now page (opsD - 1)).ops (pg + 1)).calls),
              by simp [readsOf, isMutation, List.filter_append]⟩
      · have hD0 : ¬(opsD - 1 = 0) := by
          rcases hinv with he | h1 <;> omega
        rw [if_neg (show ¬(page = [] ∨ opsN - 1 = 0) from by simp [hp, hN0]),
          if_neg (show ¬(page = [] ∨ opsD - 1 = 0) from by simp [hp, hD0])]
        have hinv1 : (opsN - 1 = opsD - 1 ∨ 1 ≤ opsN - 1) := by
          rcases hinv with he | h1
          · exact Or.inl (by omega)
          · exact Or.inr (by omega)
        obtain ⟨⟨t1, ht1⟩, hNH⟩ := processItems_lockstep args now page (opsN - 1) (opsD - 1)
          (by omega)
        by_cases hhN : (processItems (setDry args false) now page (opsN - 1)).halted = true
        · rw [if_pos hhN]
          by_cases hhD : (processItems (setDry args true) now page (opsD - 1)).halted = true
          · rw [if_pos hhD]
            refine ⟨t1, ?_⟩
            simp only [RunResult.calls, readsOf_fetch, List.cons_append, ht1]
          · rw [if_neg hhD]
            refine ⟨t1 ++ readsOf (processIssues (setDry args true) now rest
              (processItems (setDry args true) now page (opsD - 1)).ops (pg + 1)).calls, ?_⟩
            simp only [RunResult.calls, readsOf_fetch, readsOf_append, List.cons_append]
            rw [← List.append_assoc, ht1]
        · rw [if_neg hhN]
          have hNH2 := hNH (by revert hhN; cases (processItems (setDry args false) now page
            (opsN - 1)).halted <;> simp)
          obtain ⟨d1, d2, d3, d4⟩ := hNH2
          rw [if_neg (by simp [d1])]
          obtain ⟨t2, ht2⟩ := ih (processItems (setDry args false) now page (opsN - 1)).ops
            (processItems (setDry args true) now page (opsD - 1)).ops (pg + 1) d2 (d4 hinv1)
          refine ⟨t2, ?_⟩
          simp only [RunResult.calls, readsOf_fetch, readsOf_append, List.cons_append]
          rw [d3, List.append_assoc, ht2]

lemma processItems_noMut (args : Args) (now : Int) (hD : args.DRY_RUN = true) :
    ∀ (issues : List Issue) (ops : Int),
      countMutations (processItems args now issues ops).calls = 0 := by
  intro issues
  induction issues with
  | nil =>
    intro ops
    rfl
  | cons issue rest ih =>
    intro ops
    obtain ⟨_, _, _, _, hm⟩ := handleIssue_basic args now issue
    have hm0 := hm hD
    simp only [processItems]
    split_ifs with hc
    · simpa using hm0
    · simp only [PageResult.calls, countMutations_append, hm0, ih]

lemma processIssues_noMut (args : Args) (now : Int) (hD : args.DRY_RUN = true) :
    ∀ (pages : List (List Issue)) (B pg : Int),
      countMutations (processIssues args now pages B pg).calls = 0 := by
  intro pages
  induction pages with
  | nil =>
    intro B pg
    simp [processIssues, countMutations, isMutation]
  | cons page rest ih =>
    intro B pg
    simp only [processIssues]
    split_ifs with h1 h2
    · simp [countMutations, isMutation]
    · simp only [RunResult.calls, countMutations_fetch]
      exact processItems_noMut args now hD page (B - 1)
    · simp only [RunResult.calls, countMutations_fetch, countMutations_append,
        processItems_noMut args now hD, ih]

/-! ### Claim C8 -/

/-- C8: with dry-run enabled the run performs zero mutating remote calls and
each mutating helper reports 0 operations, while the read-only calls of the
normal-mode run on the same input are an initial segment of the dry run's
read-only calls (each read charging 1 in both modes by construction). -/
theorem claim_C8 (args : Args) (now : Int) (pages : List (List Issue)) (B pg : Int) :
    countMutations (processIssues (setDry args true) now pages B pg).calls = 0 ∧
    (∃ t, readsOf (processIssues (setDry args false) now pages B pg).calls ++ t =
      readsOf (processIssues (setDry args true) now pages B pg).calls) ∧
    (∀ (issue : Issue) (msg lbl : String),
      addStaleLabel issue msg lbl true = (0, []) ∧
      removeStaleLabel issue lbl true = (0, []) ∧
      closeIssue issue msg true = (0, [])) := by
  refine ⟨processIssues_noMut (setDry args true) now rfl pages B pg, ?_, ?_⟩
  · exact processIssues_lockstep args now pages B B pg le_rfl (Or.inl rfl)
  · intro issue msg lbl
    exact ⟨rfl, rfl, rfl⟩

/-! ### Claim C9 -/

lemma getAndValidateArgs_error (i : Inputs)
    (h : parseIntJS i.daysBeforeStale = none ∨ parseIntJS i.daysBeforeClose = none ∨
      parseIntJS i.operationsPerRun = none) :
    ∃ e, getAndValidateArgs i = .error e := by
  unfold getAndValidateArgs
  split_ifs with h1 h2 h3 h4 h5 h6
  · exact ⟨_, rfl⟩
  · exact ⟨_, rfl⟩
  · exact ⟨_, rfl⟩
  · exact ⟨_, rfl⟩
  · exact ⟨_, rfl⟩
  · exact ⟨_, rfl⟩
  · rcases hd1 : parseIntJS i.daysBeforeStale with _ | d1 <;>
      rcases hd2 : parseIntJS i.daysBeforeClose with _ | d2 <;>
        rcases hd3 : parseIntJS i.operationsPerRun with _ | d3 <;>
          simp_all

/-- C9: if any of the three numeric inputs does not parse to an integer, the
run fails with a configuration error and performs zero remote calls. -/
theorem claim_C9 (i : Inputs) (now : Int) (pages : List (List Issue))
    (h : parseIntJS i.daysBeforeStale = none ∨ parseIntJS i.daysBeforeClose = none ∨
      parseIntJS i.operationsPerRun = none) :
    ∃ e, run i now pages = (.failed e, []) := by
  obtain ⟨e, he⟩ := getAndValidateArgs_error i h
  exact ⟨e, by unfold run; rw [he]⟩

/-- Inputs whose operations-per-run value is non-numeric. -/
def c9Inputs : Inputs := ⟨"tok", "", "im", "pm", "30", "30", "stale", "", "stale", "", "abc"⟩

/-- Witness: the bad inputs make the run fail with no remote call made. -/
theorem claim_C9_witness :
    ∃ e, run c9Inputs 0 [[⟨1, "a", 0, false, [], [], []⟩]] = (.failed e, []) :=
  claim_C9 c9Inputs 0 [[⟨1, "a", 0, false, [], [], []⟩]] (by decide)

/-! ### Claim C10 -/

lemma processItems_examined_cons (args : Args) (now : Int) (it : Issue)
    (rest : List Issue) (ops : Int) :
    ∃ t, (processItems args now (it :: rest) ops).examined = it.number :: t := by
  simp only [processItems]
  split_ifs <;> exact ⟨_, rfl⟩

/-- C10: validation accepts any integer-parsing strings (zero and negative
included) for the three numeric inputs, and a processor run whose budget is
at or below zero still performs the first page fetch and examines the first
item of a non-empty first page. -/
theorem claim_C10 :
    (∀ (i : Inputs) (d1 d2 n : Int), i.repoToken ≠ "" → i.staleIssueLabel ≠ "" →
      i.stalePrLabel ≠ "" →
      parseIntJS i.daysBeforeStale = some d1 → parseIntJS i.daysBeforeClose = some d2 →
      parseIntJS i.operationsPerRun = some n →
      getAndValidateArgs i = .ok ⟨i.repoToken, isTrue i.dryRun, i.staleIssueMessage,
        i.stalePrMessage, d1, d2, i.staleIssueLabel, i.exemptIssueLabel, i.stalePrLabel,
        i.exemptPrLabel, n⟩) ∧
    (parseIntJS "0" = some 0 ∧ parseIntJS "-12" = some (-12)) ∧
    (∀ (args : Args) (now : Int) (it : Issue) (rest : List Issue)
        (pages : List (List Issue)) (B pg : Int), B ≤ 0 →
      (processIssues args now ((it :: rest) :: pages) B pg).calls.head? =
        some (.listForRepo pg) ∧
      (processIssues args now ((it :: rest) :: pages) B pg).examined.head? =
        some it.number) := by
  refine ⟨?_, ⟨by decide, by decide⟩, ?_⟩
  · intro i d1 d2 n h1 h2 h3 hp1 hp2 hp3
    have e1 : ¬(i.daysBeforeStale = "") := by
      intro h
      rw [h, show parseIntJS "" = none from by decide] at hp1
      exact Option.noConfusion hp1
    have e2 : ¬(i.daysBeforeClose = "") := by
      intro h
      rw [h, show parseIntJS "" = none from by decide] at hp2
      exact Option.noConfusion hp2
    have e3 : ¬(i.operationsPerRun = "") := by
      intro h
      rw [h, show parseIntJS "" = none from by decide] at hp3
      exact Option.noConfusion hp3
    unfold getAndValidateArgs
    rw [if_neg h1, if_neg e1, if_neg e2, if_neg h2, if_neg h3, if_neg e3, hp1, hp2, hp3]
  · intro args now it rest pages B pg hB
    have hne : ¬((it :: rest) = ([] : List Issue) ∨ B - 1 = 0) := by
      simp only [List.cons_ne_nil, false_or]
      omega
    simp only [processIssues]
    rw [if_neg hne]
    obtain ⟨t, ht⟩ := processItems_examined_cons args now it rest (B - 1)
    by_cases hh : (processItems args now (it :: rest) (B - 1)).halted = true
    · rw [if_pos hh]
      exact ⟨by simp, by simp [ht]⟩
    · rw [if_neg hh]
      exact ⟨by simp, by simp [ht]⟩

/-- Inputs with operations-per-run supplied as the string `"0"`. -/
def c10Inputs : Inputs := ⟨"tok", "false", "im", "pm", "30", "30", "stale", "", "stale", "", "0"⟩

/-- Configuration with operations budget 0. -/
def c10Args : Args := ⟨"t", false, "im", "pm", 30, 30, "stale", "", "stale", "", 0⟩

/-- An arbitrary open issue. -/
def c10Issue : Issue := ⟨21, "j", 0, false, [], [], []⟩

/-- Witness: validation accepts `"0"`, and the budget-0 run fetches the first
page and examines its first item. -/
theorem claim_C10_witness :
    getAndValidateArgs c10Inputs =
      .ok ⟨"tok", false, "im", "pm", 30, 30, "stale", "", "stale", "", 0⟩ ∧
    (processIssues c10Args 0 ((c10Issue :: []) :: []) 0 1).calls.head? =
      some (.listForRepo 1) ∧
    (processIssues c10Args 0 ((c10Issue :: []) :: []) 0 1).examined.head? =
      some c10Issue.number :=
  ⟨claim_C10.1 c10Inputs 30 30 0 (by decide) (by decide) (by decide) (by decide)
      (by decide) (by decide),
   (claim_C10.2.2 c10Args 0 c10Issue [] [] 0 1 (by decide)).1,
   (claim_C10.2.2 c10Args 0 c10Issue [] [] 0 1 (by decide)).2⟩

end Stale
